import Mathlib

/-!
# Verification of the multi-provider tool invocation layer (multiMCP)

A shallow embedding of `src/mcp_servers/multiMCP.py`: the `MultiMCP` class's
catalog construction (`initialize`), tool lookup (`call_tool`), call-syntax
handling, argument marshaling and response normalization (`function_wrapper`),
and `list_all_tools`.  External collaborators (the `ast` and `json` standard
library parsers, and the provider processes reached through `stdio_client`)
are modelled as parameters; every function of the repository itself is
translated directly from the Python source.

Python dictionaries are modelled as ordered association lists with
Python `dict` semantics: assignment to a present key replaces the value in
place, assignment to an absent key appends at the end, and lookup finds the
first (unique) matching key.
-/

namespace MultiMCP

/-- JSON-like values: tool arguments, schema fragments and parsed provider
responses.  Mapping keys are strings, as produced by `json.loads` on JSON
text; numeric literals are modelled as integers. -/
inductive Value where
  | null
  | bool (b : Bool)
  | num (n : Int)
  | str (s : String)
  | arr (elems : List Value)
  | obj (fields : List (String × Value))

/-- Lookup in a Python dict modelled as an association list: the value at the
first matching key (`d.get(k)` / `d[k]`). -/
def dictGet (k : String) : List (String × α) → Option α
  | [] => none
  | (k', v) :: rest => if k' = k then some v else dictGet k rest

/-- `list(d.keys())` of a Python dict: the keys in insertion order. -/
def dictKeys (m : List (String × α)) : List String :=
  m.map Prod.fst

/-- Python dict assignment `d[k] = v`: replace the value at a present key in
place, otherwise append the new pair at the end (insertion order). -/
def dictInsert (k : String) (v : α) : List (String × α) → List (String × α)
  | [] => [(k, v)]
  | (k', v') :: rest =>
    if k' = k then (k, v) :: rest else (k', v') :: dictInsert k v rest

/-- The part of a tool's JSON `inputSchema` that `multiMCP.py` reads:
its ordered `properties` map (property name → property schema), and its
`$defs` map, each definition reduced to the `properties` map that
`schema["$defs"][inner_key]["properties"]` extracts from it.  An absent
`properties` or `$defs` entry is the empty list (`schema.get(..., {})`;
the raw `schema["$defs"]` access on an absent key is modelled in `marshal`). -/
structure Schema where
  properties : List (String × Value)
  defs : List (String × List (String × Value))

/-- A discovered tool descriptor: `tool.name`, `tool.description`,
`tool.inputSchema` as read by `MultiMCP`. -/
structure Tool where
  name : String
  description : String
  inputSchema : Schema

/-- One provider configuration from `server_configs`: the fields
`config["id"]` and `config["script"]` that `MultiMCP.initialize` reads
(`config.get("cwd", ...)` only feeds process spawning, which is external). -/
structure ServerConfig where
  id : String
  script : String

/-- The outcome of one provider's discovery exchange in
`MultiMCP.initialize`, as seen from the `for config in self.server_configs`
loop: the outer `try` fails (`stdio_client`/spawn error), the inner `try`
fails (session handshake or `list_tools` error), or discovery succeeds with
the provider's declared tool list. -/
inductive Discovery where
  | connectFailure (msg : String)
  | sessionFailure (msg : String)
  | tools (ts : List Tool)

/-- A recorded discovery warning: `initialize` prints
`"❌ Error initializing MCP server {script}: {e}"` in its outer handler and
`"❌ Session error: {se}"` in its inner handler. -/
inductive Warning where
  | connectError (script : String) (msg : String)
  | sessionError (msg : String)

/-- The mutable state of a `MultiMCP` instance: `self.tool_map` (tool name →
`{"config": config, "tool": tool}` entry), `self.server_tools` (server id →
list of its tools), plus the discovery warnings printed by `initialize`. -/
structure MultiState where
  tool_map : List (String × (ServerConfig × Tool))
  server_tools : List (String × List Tool)
  warnings : List Warning

/-- The state after `__init__`: both maps empty. -/
def emptyState : MultiState :=
  { tool_map := [], server_tools := [], warnings := [] }

/-- The body of `for tool in tools.tools` in `MultiMCP.initialize`:
`self.tool_map[tool.name] = {"config": config, "tool": tool}`, then append
`tool` to `self.server_tools[config["id"]]` (creating the list if absent). -/
def registerTool (config : ServerConfig) (st : MultiState) (tool : Tool) : MultiState :=
  { st with
    tool_map := dictInsert tool.name (config, tool) st.tool_map
    server_tools :=
      match dictGet config.id st.server_tools with
      | none => dictInsert config.id [tool] st.server_tools
      | some ts => dictInsert config.id (ts ++ [tool]) st.server_tools }

/-- One iteration of the `for config in self.server_configs` loop of
`MultiMCP.initialize`: a failed discovery only records a warning (the two
`except` handlers print and continue); a successful one registers every
declared tool in declaration order. -/
def initStep (st : MultiState) (p : ServerConfig × Discovery) : MultiState :=
  match p.2 with
  | .connectFailure msg =>
    { st with warnings := st.warnings ++ [Warning.connectError p.1.script msg] }
  | .sessionFailure msg =>
    { st with warnings := st.warnings ++ [Warning.sessionError msg] }
  | .tools ts => ts.foldl (registerTool p.1) st

/-- `MultiMCP.initialize`, run over the configured providers paired with the
discovery outcome the external world hands each of them, in declaration
order.  (Named `initializeMCP` in this development.) -/
def initializeMCP (ps : List (ServerConfig × Discovery)) : MultiState :=
  ps.foldl initStep emptyState

/-- `MultiMCP.list_all_tools`: `list(self.tool_map.keys())`. -/
def list_all_tools (st : MultiState) : List String :=
  dictKeys st.tool_map

/-- The `(config, tool)` registrations a single provider contributes:
its declared tools in order when discovery succeeded, nothing when it
failed. -/
def successfulTools : ServerConfig × Discovery → List (ServerConfig × Tool)
  | (_, .connectFailure _) => []
  | (_, .sessionFailure _) => []
  | (c, .tools ts) => ts.map (fun t => (c, t))

/-- All `(config, tool)` registrations performed by `initializeMCP`, in
execution order: providers in declaration order, each provider's tools in
declared order. -/
def registrations : List (ServerConfig × Discovery) → List (ServerConfig × Tool)
  | [] => []
  | p :: ps => successfulTools p ++ registrations ps

/-- The last element of a list satisfying a predicate, if any. -/
def findLast (p : α → Bool) : List α → Option α
  | [] => none
  | x :: xs =>
    match findLast p xs with
    | some y => some y
    | none => if p x then some x else none

/-- The typed errors `function_wrapper` and `call_tool` can raise.
`parseFailure` is the `ValueError("Failed to parse function string ...")`
wrapping every failure inside the string-form `try` block (including the
inner `ValueError("Invalid function call format")` it re-raises);
`toolNotFound` the `ValueError("Tool ... not found")` of both lookups;
`argCountMismatch` the `ValueError("{tool} expects {n} args, got {m}")`;
`keyLookupFailure` the uncaught Python `KeyError` when the wrapped branch
evaluates `schema["$defs"][inner_key]` with no definition available. -/
inductive MCPError where
  | parseFailure (original : String)
  | toolNotFound (name : String)
  | argCountMismatch (tool : String) (expected : Nat) (actual : Nat)
  | keyLookupFailure

/-- The fragment of the Python expression AST (`ast.parse(s, mode='eval').body`)
that the string-form call handler inspects.  Literal nodes cover
`ast.literal_eval`'s domain as used here (numeric constants modelled as
integers); `name`, `call`, `attr` and `binApp` are the executable node
shapes, which literal evaluation rejects.  `ast.Dict` carries its keys and
values as two parallel lists, as in Python. -/
inductive Expr where
  | name (id : String)
  | intLit (n : Int)
  | strLit (s : String)
  | boolLit (b : Bool)
  | noneLit
  | listLit (elems : List Expr)
  | tupleLit (elems : List Expr)
  | dictLit (keys : List Expr) (vals : List Expr)
  | negLit (e : Expr)
  | call (func : Expr) (posArgs : List Expr) (kwArgs : List (String × Expr))
  | attr (obj : Expr) (field : String)
  | binApp (left : Expr) (right : Expr)

/-- String keys of an evaluated dict literal (mapping keys are modelled as
strings, matching the `Value.obj` representation). -/
def stringKeys : List Value → Option (List String)
  | [] => some []
  | .str s :: vs => (stringKeys vs).map (fun rest => s :: rest)
  | _ => none

mutual

/-- `ast.literal_eval` on one argument node: evaluates literal structure
only, and fails (`none`) on every executable node — names, calls, attribute
access, operator applications. -/
def litEval : Expr → Option Value
  | .intLit n => some (.num n)
  | .strLit s => some (.str s)
  | .boolLit b => some (.bool b)
  | .noneLit => some .null
  | .negLit e =>
    match litEval e with
    | some (.num n) => some (.num (-n))
    | _ => none
  | .listLit es => (litEvalList es).map .arr
  | .tupleLit es => (litEvalList es).map .arr
  | .dictLit ks vs =>
    match litEvalList ks, litEvalList vs with
    | some kvals, some vvals =>
      match stringKeys kvals with
      | some ss => some (.obj (ss.zip vvals))
      | none => none
    | _, _ => none
  | .name _ => none
  | .call _ _ _ => none
  | .attr _ _ => none
  | .binApp _ _ => none

/-- `[ast.literal_eval(arg) for arg in expr.args]`: all positional argument
nodes evaluated in order, failing if any one fails. -/
def litEvalList : List Expr → Option (List Value)
  | [] => some []
  | e :: es =>
    match litEval e, litEvalList es with
    | some v, some vs => some (v :: vs)
    | _, _ => none

end

/-- Python `s.strip()`: remove leading and trailing whitespace.  Defined by
structural recursion over the string's characters so that it evaluates on
closed inputs. -/
def pyStrip (s : String) : String :=
  ⟨((s.data.dropWhile Char.isWhitespace).reverse.dropWhile Char.isWhitespace).reverse⟩

/-- Python `s.endswith(c)` for a one-character suffix: the last character,
if any, equals `c`. -/
def pyEndsWith (s : String) (c : Char) : Bool :=
  match s.data.getLast? with
  | some d => d == c
  | none => false

/-- Python `c in s` for a one-character needle. -/
def pyContainsChar (s : String) (c : Char) : Bool :=
  s.data.contains c

/-- Lines 180–185 of `multiMCP.py`, applied to the parsed expression: require
an `ast.Call` whose callee is an `ast.Name`, then literal-evaluate every
positional argument (`expr.args`; keyword arguments are not read).  Any
failure — wrong node shape or a non-literal argument — is the caught-and-
re-raised `ValueError`, modelled as `parseFailure` carrying the input
string. -/
def parseCallExpr (orig : String) : Expr → Except MCPError (String × List Value)
  | .call (.name f) argExprs _ =>
    match litEvalList argExprs with
    | some vs => .ok (f, vs)
    | none => .error (.parseFailure orig)
  | _ => .error (.parseFailure orig)

/-- Lines 175–185 of `function_wrapper`: the string-form gate.  Only when no
positional argument was supplied and the stripped string ends with `")"` and
contains `"("` is the input handed to `ast.parse` (modelled by the external
parameter `pp`, `none` standing for a `SyntaxError`); in every other case
the string is used verbatim as the tool name. -/
def resolveCallString (pp : String → Option Expr) (tool_name : String)
    (args : List Value) : Except MCPError (String × List Value) :=
  if args.isEmpty then
    let stripped := pyStrip tool_name
    if pyEndsWith stripped ')' && pyContainsChar stripped '(' then
      match pp stripped with
      | none => .error (.parseFailure tool_name)
      | some e => parseCallExpr tool_name e
    else
      .ok (tool_name, args)
  else
    .ok (tool_name, args)

/-- Lines 197–209 of `function_wrapper`: build the input payload.  The
wrapped branch fires exactly when a property named `"input"` is present in
`schema.get("properties", {})`; it reads the first `$defs` entry
(`next(iter(schema.get("$defs", {})), None)` followed by the raw
`schema["$defs"][inner_key]` lookup, a `KeyError` when there is none) and
zips that definition's property names with the arguments under `"input"`.
The flat branch zips the top-level property names directly.  Both branches
require the argument count to equal the property count. -/
def marshal (toolName : String) (schema : Schema) (args : List Value) :
    Except MCPError (List (String × Value)) :=
  if (dictKeys schema.properties).contains "input" then
    match schema.defs with
    | [] => .error .keyLookupFailure
    | (_, innerProps) :: _ =>
      let paramNames := dictKeys innerProps
      if paramNames.length ≠ args.length then
        .error (.argCountMismatch toolName paramNames.length args.length)
      else
        .ok [("input", .obj (paramNames.zip args))]
  else
    let paramNames := dictKeys schema.properties
    if paramNames.length ≠ args.length then
      .error (.argCountMismatch toolName paramNames.length args.length)
    else
      .ok (paramNames.zip args)

/-- One content part of a provider response (`TextContent`: a `type` tag and
the `text` payload). -/
structure ContentPart where
  type : String
  text : String

/-- The raw provider response envelope: `result.content`, a list of content
parts.  (`getattr(result, "content", [])` — an envelope is modelled by its
content list.) -/
structure CallEnvelope where
  content : List ContentPart

/-- What `function_wrapper` returns after its normalization step: either a
parsed plain value, or the raw envelope when parsing failed. -/
inductive NormResult where
  | value (v : Value)
  | raw (envelope : CallEnvelope)

/-- Lines 214–227 of `function_wrapper`: response normalization.  The first
content part's text is stripped and parsed as JSON (`pj` models
`json.loads`, `none` standing for a raised `JSONDecodeError`); a mapping
with a `"result"` key yields that key's value, a single-entry mapping yields
its sole value, any other mapping and any non-mapping value is returned
as-is.  An empty content list (the `[0]` raising `IndexError`) and a parse
failure both fall to the `except` handler, which returns the raw envelope —
this path never raises. -/
def normalize (pj : String → Option Value) (result : CallEnvelope) : NormResult :=
  match result.content with
  | [] => .raw result
  | part :: _ =>
    match pj (pyStrip part.text) with
    | none => .raw result
    | some (.obj fields) =>
      match dictGet "result" fields with
      | some v => .value v
      | none =>
        match fields with
        | [kv] => .value kv.2
        | _ => .value (.obj fields)
    | some parsed => .value parsed

/-- `MultiMCP.call_tool`: look the tool up in `self.tool_map` (raising
`ValueError` when absent) and perform one provider exchange with the entry's
own config.  The external provider round-trip is the parameter `cp`, mapping
the owning config, tool name and payload to the response envelope. -/
def call_tool (cp : ServerConfig → String → List (String × Value) → CallEnvelope)
    (st : MultiState) (tool_name : String) (arguments : List (String × Value)) :
    Except MCPError CallEnvelope :=
  match dictGet tool_name st.tool_map with
  | none => .error (.toolNotFound tool_name)
  | some entry => .ok (cp entry.1 tool_name arguments)

/-- `MultiMCP.function_wrapper`: resolve the string-form call syntax, look
the tool up in `self.tool_map`, marshal the arguments against its schema,
perform the call through `call_tool` (which looks the name up again), and
normalize the response. -/
def function_wrapper (pp : String → Option Expr) (pj : String → Option Value)
    (cp : ServerConfig → String → List (String × Value) → CallEnvelope)
    (st : MultiState) (tool_name : String) (args : List Value) :
    Except MCPError NormResult :=
  match resolveCallString pp tool_name args with
  | .error e => .error e
  | .ok (name, args') =>
    match dictGet name st.tool_map with
    | none => .error (.toolNotFound name)
    | some entry =>
      match marshal name entry.2.inputSchema args' with
      | .error e => .error e
      | .ok payload =>
        match call_tool cp st name payload with
        | .error e => .error e
        | .ok result => .ok (normalize pj result)

/-! ## Concrete instances

Schemas, tools and provider configurations shaped like the repository's own
(`mcp_server_1.py`/`mcp_server_4.py` declare every tool with a single
pydantic `input` parameter, producing the wrapped `$defs` schema shape),
used to evaluate the definitions on closed inputs. -/

/-- The JSON schema fragment `\x7b"type": "integer"\x7d`. -/
def intTag : Value := .obj [("type", .str "integer")]

/-- The JSON schema fragment `\x7b"$ref": "#/$defs/<defName>"\x7d`. -/
def refTag (defName : String) : Value := .obj [("$ref", .str ("#/$defs/" ++ defName))]

/-- The wrapped schema of the repository's `add` tool: one top-level
property `input` referencing `$defs.AddInput`, whose properties are `a` and
`b`. -/
def schemaAddWrapped : Schema :=
  ⟨[("input", refTag "AddInput")], [("AddInput", [("a", intTag), ("b", intTag)])]⟩

/-- A flat two-parameter schema with properties `a` and `b`. -/
def schemaFlatAB : Schema := ⟨[("a", intTag), ("b", intTag)], []⟩

/-- A schema with exactly one top-level property, named `data`, that
references the definition `$defs.DataInput` (inner properties `a`, `b`). -/
def schemaSingleRef : Schema :=
  ⟨[("data", refTag "DataInput")], [("DataInput", [("a", intTag), ("b", intTag)])]⟩

/-- A flat schema whose single declared property is a plain string parameter
that happens to be named `input` (no `$defs`, no reference). -/
def schemaFlatInputParam : Schema := ⟨[("input", .obj [("type", .str "string")])], []⟩

def cfgA : ServerConfig := ⟨"server_A", "mcp_server_1.py"⟩

def cfgB : ServerConfig := ⟨"server_B", "mcp_server_4.py"⟩

def addToolA : Tool := ⟨"add", "Adds two numbers.", schemaAddWrapped⟩

def addToolB : Tool := ⟨"add", "Adds two numbers (provider B).", schemaAddWrapped⟩

/-- Two providers in declaration order, both declaring a tool named `add`. -/
def psPair : List (ServerConfig × Discovery) :=
  [(cfgA, .tools [addToolA]), (cfgB, .tools [addToolB])]

/-- An `add` tool with a flat two-parameter schema. -/
def flatAddTool : Tool := ⟨"add", "Adds two numbers.", schemaFlatAB⟩

/-- A catalog holding only `flatAddTool`. -/
def stFlat : MultiState :=
  ⟨[("add", (cfgA, flatAddTool))], [("server_A", [flatAddTool])], []⟩

/-- An `echo` tool whose Flat schema's single plain parameter is named
`input` (`schemaFlatInputParam`). -/
def inputParamTool : Tool := ⟨"echo", "Echoes a string.", schemaFlatInputParam⟩

/-- A catalog holding only `inputParamTool`. -/
def stInputParam : MultiState :=
  ⟨[("echo", (cfgB, inputParamTool))], [("server_B", [inputParamTool])], []⟩

/-- A concrete stand-in for `ast.parse(s, mode='eval').body`, defined on the
two call strings of interest. -/
def ppEx : String → Option Expr := fun s =>
  if s = "add(45, 55)" then some (.call (.name "add") [.intLit 45, .intLit 55] [])
  else if s = "add(x, 1)" then some (.call (.name "add") [.name "x", .intLit 1] [])
  else none

/-- A concrete stand-in for `json.loads`, defined on the two response texts
of interest (`\x7b"result": 7\x7d` and `\x7b"ascii_values": [1, 2, 3]\x7d`). -/
def pjEx : String → Option Value := fun s =>
  if s = "\x7b\"result\": 7\x7d" then some (.obj [("result", .num 7)])
  else if s = "\x7b\"ascii_values\": [1, 2, 3]\x7d" then
    some (.obj [("ascii_values", .arr [.num 1, .num 2, .num 3])])
  else none

/-- A provider envelope whose first content part is `\x7b"result": 7\x7d`. -/
def envResult : CallEnvelope := ⟨[⟨"text", "\x7b\"result\": 7\x7d"⟩]⟩

/-- A provider envelope whose first content part is a single-key mapping. -/
def envAscii : CallEnvelope := ⟨[⟨"text", "\x7b\"ascii_values\": [1, 2, 3]\x7d"⟩]⟩

/-- A provider envelope carrying plain non-JSON text. -/
def envMalformed : CallEnvelope := ⟨[⟨"text", "not-json"⟩]⟩

/-- A provider envelope with no content parts. -/
def envEmpty : CallEnvelope := ⟨[]⟩

/-- A concrete provider round-trip that always answers `envResult`. -/
def cpEx : ServerConfig → String → List (String × Value) → CallEnvelope :=
  fun _ _ _ => envResult

/-- Equality of the two catalog components (`tool_map` and `server_tools`),
ignoring the recorded warnings. -/
def catalogEq (st st' : MultiState) : Prop :=
  st.tool_map = st'.tool_map ∧ st.server_tools = st'.server_tools

/-- The catalog invariant of claim C9: every tool recorded under a provider
in `server_tools` has its name present as a key of `tool_map`. -/
def CatalogInv (st : MultiState) : Prop :=
  ∀ sid ts t, dictGet sid st.server_tools = some ts → t ∈ ts →
    (dictGet t.name st.tool_map).isSome = true

/-! ## Dictionary laws -/

theorem dictGet_dictInsert (k k' : String) (v : α) (m : List (String × α)) :
    dictGet k (dictInsert k' v m) = if k' = k then some v else dictGet k m := by
  induction m with
  | nil => simp [dictGet, dictInsert]
  | cons kv rest ih =>
    obtain ⟨a, b⟩ := kv
    by_cases h1 : a = k'
    · subst h1
      by_cases h2 : a = k <;> simp [dictGet, dictInsert, h2]
    · by_cases h2 : a = k
      · subst h2
        simp only [dictInsert, if_neg h1, dictGet, if_pos rfl]
        have : ¬ k' = a := fun h => h1 h.symm
        simp [this]
      · simp [dictGet, dictInsert, h1, h2, ih]

theorem mem_dictKeys_iff (k : String) (m : List (String × α)) :
    k ∈ dictKeys m ↔ (dictGet k m).isSome = true := by
  induction m with
  | nil => simp [dictGet, dictKeys]
  | cons kv rest ih =>
    obtain ⟨a, b⟩ := kv
    by_cases h : a = k
    · subst h; simp [dictGet, dictKeys]
    · have hstep : k ∈ dictKeys ((a, b) :: rest) ↔ k ∈ dictKeys rest := by
        simp only [dictKeys, List.map_cons, List.mem_cons]
        constructor
        · rintro (h' | h')
          · exact absurd h'.symm h
          · exact h'
        · exact Or.inr
      rw [hstep, ih]
      simp [dictGet, h]

/-! ## Catalog construction: fold laws -/

theorem foldl_registerTool_tool_map (c : ServerConfig) (ts : List Tool) (st : MultiState) :
    (ts.foldl (registerTool c) st).tool_map =
      ts.foldl (fun m t => dictInsert t.name (c, t) m) st.tool_map := by
  induction ts generalizing st with
  | nil => rfl
  | cons t ts ih => simp [List.foldl_cons, ih, registerTool]

theorem foldl_initStep_tool_map (ps : List (ServerConfig × Discovery)) (st : MultiState) :
    (ps.foldl initStep st).tool_map =
      (registrations ps).foldl (fun m r => dictInsert r.2.name r m) st.tool_map := by
  induction ps generalizing st with
  | nil => rfl
  | cons p ps ih =>
    obtain ⟨c, d⟩ := p
    cases d with
    | connectFailure msg => simpa [registrations, successfulTools, initStep] using ih _
    | sessionFailure msg => simpa [registrations, successfulTools, initStep] using ih _
    | tools ts =>
      simp only [List.foldl_cons, initStep, registrations, successfulTools,
        List.foldl_append, ih, foldl_registerTool_tool_map, List.foldl_map]

theorem dictGet_foldl_dictInsert (rs : List (ServerConfig × Tool)) (m : List (String × (ServerConfig × Tool))) (k : String) :
    dictGet k (rs.foldl (fun m r => dictInsert r.2.name r m) m) =
      match findLast (fun r => r.2.name == k) rs with
      | some r => some r
      | none => dictGet k m := by
  induction rs generalizing m with
  | nil => simp [findLast]
  | cons r rs ih =>
    simp only [List.foldl_cons, ih, findLast]
    cases hfl : findLast (fun r => r.2.name == k) rs with
    | some y => simp
    | none =>
      by_cases h : r.2.name = k <;> simp [h, dictGet_dictInsert]

theorem dictGet_initializeMCP_tool_map (ps : List (ServerConfig × Discovery)) (n : String) :
    dictGet n (initializeMCP ps).tool_map =
      findLast (fun r => r.2.name == n) (registrations ps) := by
  rw [initializeMCP, foldl_initStep_tool_map, dictGet_foldl_dictInsert]
  cases findLast (fun r => r.2.name == n) (registrations ps) <;> simp [emptyState, dictGet]

theorem findLast_isSome (p : α → Bool) (xs : List α) :
    (findLast p xs).isSome = true ↔ ∃ x, x ∈ xs ∧ p x = true := by
  induction xs with
  | nil => simp [findLast]
  | cons x xs ih =>
    cases hfl : findLast p xs with
    | some y =>
      obtain ⟨z, hz, hpz⟩ := ih.mp (by simp [hfl])
      simp only [findLast, hfl, Option.isSome_some, true_iff]
      exact ⟨z, List.mem_cons_of_mem _ hz, hpz⟩
    | none =>
      have hno : ∀ z, z ∈ xs → p z ≠ true := by
        intro z hz hpz
        have := ih.mpr ⟨z, hz, hpz⟩
        simp [hfl] at this
      by_cases hpx : p x = true
      · simp only [findLast, hfl, hpx, if_true, Option.isSome_some, true_iff]
        exact ⟨x, List.mem_cons_self _ _, hpx⟩
      · have hpx' : p x = false := by simpa using hpx
        simp only [findLast, hfl, hpx', Bool.false_eq_true, if_false, Option.isSome_none,
          false_iff]
        rintro ⟨z, hz, hpz⟩
        rcases List.mem_cons.mp hz with h | h
        · exact hpx (h ▸ hpz)
        · exact hno z h hpz

theorem mem_registrations (r : ServerConfig × Tool) (ps : List (ServerConfig × Discovery)) :
    r ∈ registrations ps ↔ ∃ ts, (r.1, Discovery.tools ts) ∈ ps ∧ r.2 ∈ ts := by
  induction ps with
  | nil => simp [registrations]
  | cons p ps ih =>
    obtain ⟨c, d⟩ := p
    cases d with
    | connectFailure msg =>
      simp only [registrations, successfulTools, List.nil_append, ih, List.mem_cons]
      constructor
      · rintro ⟨ts, h, hm⟩; exact ⟨ts, Or.inr h, hm⟩
      · rintro ⟨ts, h | h, hm⟩
        · cases h
        · exact ⟨ts, h, hm⟩
    | sessionFailure msg =>
      simp only [registrations, successfulTools, List.nil_append, ih, List.mem_cons]
      constructor
      · rintro ⟨ts, h, hm⟩; exact ⟨ts, Or.inr h, hm⟩
      · rintro ⟨ts, h | h, hm⟩
        · cases h
        · exact ⟨ts, h, hm⟩
    | tools ts =>
      simp only [registrations, successfulTools, List.mem_append, List.mem_map, ih,
        List.mem_cons]
      constructor
      · rintro (⟨t, ht, rfl⟩ | ⟨ts', h, hm⟩)
        · exact ⟨ts, Or.inl rfl, ht⟩
        · exact ⟨ts', Or.inr h, hm⟩
      · rintro ⟨ts', h | h, hm⟩
        · obtain ⟨h1, h2⟩ := Prod.mk.injEq .. ▸ h
          cases h2
          exact Or.inl ⟨r.2, hm, by rw [← h1]⟩
        · exact Or.inr ⟨ts', h, hm⟩

/-! ## Partial-failure tolerance: warnings and catalog projections -/

theorem foldl_registerTool_warnings (c : ServerConfig) (ts : List Tool) (st : MultiState) :
    (ts.foldl (registerTool c) st).warnings = st.warnings := by
  induction ts generalizing st with
  | nil => rfl
  | cons t ts ih =>
    rw [List.foldl_cons, ih]
    rfl

theorem initStep_warnings (st : MultiState) (p : ServerConfig × Discovery) :
    ∃ w, (initStep st p).warnings = st.warnings ++ w := by
  obtain ⟨c, d⟩ := p
  cases d with
  | connectFailure msg => exact ⟨[Warning.connectError c.script msg], rfl⟩
  | sessionFailure msg => exact ⟨[Warning.sessionError msg], rfl⟩
  | tools ts => exact ⟨[], by rw [initStep, foldl_registerTool_warnings, List.append_nil]⟩

theorem foldl_initStep_warnings (ps : List (ServerConfig × Discovery)) (st : MultiState) :
    ∃ l, (ps.foldl initStep st).warnings = st.warnings ++ l := by
  induction ps generalizing st with
  | nil => exact ⟨[], by simp⟩
  | cons p ps ih =>
    obtain ⟨w, hw⟩ := initStep_warnings st p
    obtain ⟨l, hl⟩ := ih (initStep st p)
    exact ⟨w ++ l, by rw [List.foldl_cons, hl, hw, List.append_assoc]⟩

theorem registerTool_catalogEq (c : ServerConfig) (t : Tool) {st st' : MultiState}
    (h : catalogEq st st') : catalogEq (registerTool c st t) (registerTool c st' t) := by
  obtain ⟨h1, h2⟩ := h
  exact ⟨by simp [registerTool, h1], by simp [registerTool, h2]⟩

theorem foldl_registerTool_catalogEq (c : ServerConfig) (ts : List Tool) {st st' : MultiState}
    (h : catalogEq st st') :
    catalogEq (ts.foldl (registerTool c) st) (ts.foldl (registerTool c) st') := by
  induction ts generalizing st st' with
  | nil => exact h
  | cons t ts ih =>
    rw [List.foldl_cons, List.foldl_cons]
    exact ih (registerTool_catalogEq c t h)

theorem initStep_catalogEq (p : ServerConfig × Discovery) {st st' : MultiState}
    (h : catalogEq st st') : catalogEq (initStep st p) (initStep st' p) := by
  obtain ⟨c, d⟩ := p
  cases d with
  | connectFailure msg => exact ⟨h.1, h.2⟩
  | sessionFailure msg => exact ⟨h.1, h.2⟩
  | tools ts => exact foldl_registerTool_catalogEq c ts h

theorem foldl_initStep_catalogEq (ps : List (ServerConfig × Discovery)) {st st' : MultiState}
    (h : catalogEq st st') :
    catalogEq (ps.foldl initStep st) (ps.foldl initStep st') := by
  induction ps generalizing st st' with
  | nil => exact h
  | cons p ps ih =>
    rw [List.foldl_cons, List.foldl_cons]
    exact ih (initStep_catalogEq p h)

/-! ## The per-provider grouping invariant -/

theorem catalogInv_registerTool (c : ServerConfig) (t : Tool) {st : MultiState}
    (h : CatalogInv st) : CatalogInv (registerTool c st t) := by
  have hmono : ∀ k, (dictGet k st.tool_map).isSome = true →
      (dictGet k (registerTool c st t).tool_map).isSome = true := by
    intro k hk
    show (dictGet k (dictInsert t.name (c, t) st.tool_map)).isSome = true
    rw [dictGet_dictInsert]
    by_cases hn : t.name = k <;> simp [hn, hk]
  have hself : (dictGet t.name (registerTool c st t).tool_map).isSome = true := by
    show (dictGet t.name (dictInsert t.name (c, t) st.tool_map)).isSome = true
    rw [dictGet_dictInsert]
    simp
  intro sid ts' tt hget hmem
  by_cases hs : c.id = sid
  · subst hs
    cases hold : dictGet c.id st.server_tools with
    | none =>
      have hnew : dictGet c.id (registerTool c st t).server_tools = some [t] := by
        simp [registerTool, hold, dictGet_dictInsert]
      rw [hnew] at hget
      cases hget
      have : tt = t := by simpa using hmem
      rw [this]
      exact hself
    | some ts0 =>
      have hnew : dictGet c.id (registerTool c st t).server_tools = some (ts0 ++ [t]) := by
        simp [registerTool, hold, dictGet_dictInsert]
      rw [hnew] at hget
      cases hget
      rcases List.mem_append.mp hmem with hm | hm
      · exact hmono _ (h c.id ts0 tt hold hm)
      · have : tt = t := by simpa using hm
        rw [this]
        exact hself
  · have hsame : dictGet sid (registerTool c st t).server_tools =
        dictGet sid st.server_tools := by
      cases hold : dictGet c.id st.server_tools <;>
        simp [registerTool, hold, dictGet_dictInsert, hs]
    rw [hsame] at hget
    exact hmono _ (h sid ts' tt hget hmem)

theorem catalogInv_foldl_registerTool (c : ServerConfig) (ts : List Tool) {st : MultiState}
    (h : CatalogInv st) : CatalogInv (ts.foldl (registerTool c) st) := by
  induction ts generalizing st with
  | nil => exact h
  | cons t ts ih =>
    rw [List.foldl_cons]
    exact ih (catalogInv_registerTool c t h)

theorem catalogInv_initStep (p : ServerConfig × Discovery) {st : MultiState}
    (h : CatalogInv st) : CatalogInv (initStep st p) := by
  obtain ⟨c, d⟩ := p
  cases d with
  | connectFailure msg => exact fun sid ts t hg hm => h sid ts t hg hm
  | sessionFailure msg => exact fun sid ts t hg hm => h sid ts t hg hm
  | tools ts => exact catalogInv_foldl_registerTool c ts h

theorem catalogInv_initializeMCP (ps : List (ServerConfig × Discovery)) :
    CatalogInv (initializeMCP ps) := by
  have main : ∀ st, CatalogInv st → CatalogInv (ps.foldl initStep st) := by
    induction ps with
    | nil => exact fun st h => h
    | cons p ps ih =>
      intro st h
      rw [List.foldl_cons]
      exact ih _ (catalogInv_initStep p h)
  apply main
  intro sid ts t hget
  simp [emptyState, dictGet] at hget

/-- Dropping one provider whose discovery fails: the resulting catalog
components are those built from the remaining providers, and the failure's
warning is recorded. -/
theorem initializeMCP_skip (ps1 ps2 : List (ServerConfig × Discovery))
    (p : ServerConfig × Discovery) (w : Warning)
    (hcat : catalogEq (initStep (ps1.foldl initStep emptyState) p)
      (ps1.foldl initStep emptyState))
    (hwmem : w ∈ (initStep (ps1.foldl initStep emptyState) p).warnings) :
    catalogEq (initializeMCP (ps1 ++ p :: ps2)) (initializeMCP (ps1 ++ ps2)) ∧
      w ∈ (initializeMCP (ps1 ++ p :: ps2)).warnings := by
  have h1 : initializeMCP (ps1 ++ p :: ps2) =
      ps2.foldl initStep (initStep (ps1.foldl initStep emptyState) p) := by
    rw [initializeMCP, List.foldl_append, List.foldl_cons]
  have h2 : initializeMCP (ps1 ++ ps2) = ps2.foldl initStep (ps1.foldl initStep emptyState) := by
    rw [initializeMCP, List.foldl_append]
  constructor
  · rw [h1, h2]
    exact foldl_initStep_catalogEq ps2 hcat
  · rw [h1]
    obtain ⟨l, hl⟩ := foldl_initStep_warnings ps2 (initStep (ps1.foldl initStep emptyState) p)
    rw [hl]
    exact List.mem_append_left _ hwmem

/-! ## The claims -/

/-- C1: after `initialize` processes the provider list in declaration order,
`list_all_tools` returns exactly the keys of the `tool_map` catalog; a name
is among them exactly when some reachable provider (one whose discovery
succeeded) declared a tool of that name; and the catalog entry stored under
a name is the registration performed last in declaration order — on a
duplicate tool name, the later provider's descriptor wins. -/
theorem c1_catalog_union_last_wins (ps : List (ServerConfig × Discovery)) :
    list_all_tools (initializeMCP ps) = dictKeys (initializeMCP ps).tool_map ∧
    (∀ n, n ∈ list_all_tools (initializeMCP ps) ↔
      ∃ c ts t, (c, Discovery.tools ts) ∈ ps ∧ t ∈ ts ∧ t.name = n) ∧
    (∀ n, dictGet n (initializeMCP ps).tool_map =
      findLast (fun r => r.2.name == n) (registrations ps)) := by
  refine ⟨rfl, ?_, fun n => dictGet_initializeMCP_tool_map ps n⟩
  intro n
  rw [list_all_tools, mem_dictKeys_iff, dictGet_initializeMCP_tool_map, findLast_isSome]
  constructor
  · rintro ⟨r, hr, hpr⟩
    obtain ⟨ts, hmem, ht⟩ := (mem_registrations r ps).mp hr
    exact ⟨r.1, ts, r.2, hmem, ht, by simpa using hpr⟩
  · rintro ⟨c, ts, t, hps, hts, hname⟩
    refine ⟨(c, t), (mem_registrations (c, t) ps).mpr ⟨ts, hps, hts⟩, ?_⟩
    simpa using hname

/-- C8: a provider whose discovery fails — in the outer handler
(connection/startup) or the inner one (session handshake or tool listing) —
contributes only a warning: the catalog maps are exactly those built from
the remaining providers, and the corresponding warning is recorded. -/
theorem c8_partial_failure_tolerant (ps1 ps2 : List (ServerConfig × Discovery))
    (c : ServerConfig) (msg : String) :
    ((initializeMCP (ps1 ++ (c, Discovery.connectFailure msg) :: ps2)).tool_map =
        (initializeMCP (ps1 ++ ps2)).tool_map ∧
      (initializeMCP (ps1 ++ (c, Discovery.connectFailure msg) :: ps2)).server_tools =
        (initializeMCP (ps1 ++ ps2)).server_tools ∧
      Warning.connectError c.script msg ∈
        (initializeMCP (ps1 ++ (c, Discovery.connectFailure msg) :: ps2)).warnings) ∧
    ((initializeMCP (ps1 ++ (c, Discovery.sessionFailure msg) :: ps2)).tool_map =
        (initializeMCP (ps1 ++ ps2)).tool_map ∧
      (initializeMCP (ps1 ++ (c, Discovery.sessionFailure msg) :: ps2)).server_tools =
        (initializeMCP (ps1 ++ ps2)).server_tools ∧
      Warning.sessionError msg ∈
        (initializeMCP (ps1 ++ (c, Discovery.sessionFailure msg) :: ps2)).warnings) := by
  constructor
  · obtain ⟨⟨hm, hs⟩, hw⟩ := initializeMCP_skip ps1 ps2 (c, Discovery.connectFailure msg)
      (Warning.connectError c.script msg) ⟨rfl, rfl⟩
      (List.mem_append_right _ (List.mem_singleton_self _))
    exact ⟨hm, hs, hw⟩
  · obtain ⟨⟨hm, hs⟩, hw⟩ := initializeMCP_skip ps1 ps2 (c, Discovery.sessionFailure msg)
      (Warning.sessionError msg) ⟨rfl, rfl⟩
      (List.mem_append_right _ (List.mem_singleton_self _))
    exact ⟨hm, hs, hw⟩

/-- C9: after `initialize`, every tool descriptor recorded in a provider's
`server_tools` entry has its name present as a key of `tool_map` — also when
a later provider re-declared that name and now owns the entry. -/
theorem c9_server_tools_subset_tool_map (ps : List (ServerConfig × Discovery))
    (sid : String) (ts : List Tool) (t : Tool)
    (h1 : dictGet sid (initializeMCP ps).server_tools = some ts) (h2 : t ∈ ts) :
    (dictGet t.name (initializeMCP ps).tool_map).isSome = true :=
  catalogInv_initializeMCP ps sid ts t h1 h2

/-- Witness for C9 on `psPair`: provider A's recorded `add` descriptor still
has its name in `tool_map` although provider B, later in declaration order,
overwrote the `add` entry. -/
theorem c9_witness :
    (dictGet addToolA.name (initializeMCP psPair).tool_map).isSome = true :=
  c9_server_tools_subset_tool_map psPair "server_A" [addToolA] addToolA rfl
    (List.mem_singleton_self _)

/-- C2: response normalization always produces a value and never raises (it
is a total function by construction, mirroring the catch-all `except`): an
envelope with no content parts or unparseable first-part text yields the raw
envelope unchanged; a parsed mapping with a `"result"` key yields that
key's value; a single-key mapping yields its sole value; a multi-key
mapping (or the empty mapping) is returned as-is; a parsed non-mapping
value is returned as-is. -/
theorem c2_normalize_cases (pj : String → Option Value) (env : CallEnvelope) :
    (env.content = [] → normalize pj env = .raw env) ∧
    (∀ part rest, env.content = part :: rest →
      (pj (pyStrip part.text) = none → normalize pj env = .raw env) ∧
      (∀ fields v, pj (pyStrip part.text) = some (.obj fields) →
        dictGet "result" fields = some v → normalize pj env = .value v) ∧
      (∀ k v, pj (pyStrip part.text) = some (.obj [(k, v)]) →
        dictGet "result" [(k, v)] = none → normalize pj env = .value v) ∧
      (∀ fields, pj (pyStrip part.text) = some (.obj fields) →
        dictGet "result" fields = none → fields.length ≠ 1 →
        normalize pj env = .value (.obj fields)) ∧
      (∀ v, pj (pyStrip part.text) = some v → (∀ fields, v ≠ .obj fields) →
        normalize pj env = .value v)) := by
  refine ⟨?_, ?_⟩
  · intro h
    simp [normalize, h]
  · intro part rest h
    refine ⟨?_, ?_, ?_, ?_, ?_⟩
    · intro hp
      simp [normalize, h, hp]
    · intro fields v hp hd
      simp [normalize, h, hp, hd]
    · intro k v hp hd
      simp [normalize, h, hp, hd]
    · intro fields hp hd hlen
      rcases fields with _ | ⟨kv, tail⟩
      · simp [normalize, h, hp, hd]
      · rcases tail with _ | ⟨kv2, more⟩
        · simp at hlen
        · simp [normalize, h, hp, hd]
    · intro v hp hno
      cases v with
      | obj fields => exact absurd rfl (hno fields)
      | null => simp [normalize, h, hp]
      | bool b => simp [normalize, h, hp]
      | num n => simp [normalize, h, hp]
      | str s => simp [normalize, h, hp]
      | arr elems => simp [normalize, h, hp]

/-- Witness for C2 on the spec's three examples plus the empty envelope:
`\x7b"result": 7\x7d` normalizes to `7`, the single-key
`\x7b"ascii_values": [1, 2, 3]\x7d` to `[1, 2, 3]`, and `not-json` and an
empty envelope to the raw envelope. -/
theorem c2_witness :
    normalize pjEx envResult = .value (.num 7) ∧
    normalize pjEx envAscii = .value (.arr [.num 1, .num 2, .num 3]) ∧
    normalize pjEx envMalformed = .raw envMalformed ∧
    normalize pjEx envEmpty = .raw envEmpty :=
  ⟨((c2_normalize_cases pjEx envResult).2 ⟨"text", "\x7b\"result\": 7\x7d"⟩ [] rfl).2.1
      [("result", .num 7)] (.num 7) rfl rfl,
    ((c2_normalize_cases pjEx envAscii).2 ⟨"text", "\x7b\"ascii_values\": [1, 2, 3]\x7d"⟩ []
        rfl).2.2.1 "ascii_values" (.arr [.num 1, .num 2, .num 3]) rfl rfl,
    ((c2_normalize_cases pjEx envMalformed).2 ⟨"text", "not-json"⟩ [] rfl).1 rfl,
    (c2_normalize_cases pjEx envEmpty).1 rfl⟩

/-- C4: the string-form call handler, applied to the parsed expression:
a call of a bare identifier whose positional arguments all literal-evaluate
succeeds with the identifier and the evaluated literals in order; a non-call
expression, a call whose callee is not a bare name, and a call with a
non-literal positional argument all fail with the parse error; and literal
evaluation itself is undefined on every executable node shape (names,
calls, attribute access, operator applications), so nothing beyond literal
structure is ever evaluated. -/
theorem c4_literal_call_syntax (orig : String) :
    (∀ f argExprs vs, litEvalList argExprs = some vs →
      parseCallExpr orig (.call (.name f) argExprs []) = .ok (f, vs)) ∧
    (∀ e, (∀ func posArgs kwArgs, e ≠ .call func posArgs kwArgs) →
      parseCallExpr orig e = .error (.parseFailure orig)) ∧
    (∀ func posArgs kwArgs, (∀ i, func ≠ .name i) →
      parseCallExpr orig (.call func posArgs kwArgs) = .error (.parseFailure orig)) ∧
    (∀ f argExprs kwArgs, litEvalList argExprs = none →
      parseCallExpr orig (.call (.name f) argExprs kwArgs) = .error (.parseFailure orig)) ∧
    (∀ x, litEval (.name x) = none) ∧
    (∀ func posArgs kwArgs, litEval (.call func posArgs kwArgs) = none) ∧
    (∀ o a, litEval (.attr o a) = none) ∧
    (∀ l r, litEval (.binApp l r) = none) := by
  refine ⟨?_, ?_, ?_, ?_, fun x => rfl, fun func posArgs kwArgs => rfl,
    fun o a => rfl, fun l r => rfl⟩
  · intro f argExprs vs hv
    simp [parseCallExpr, hv]
  · intro e he
    cases e <;> first
      | rfl
      | exact absurd rfl (he _ _ _)
  · intro func posArgs kwArgs hf
    cases func <;> first
      | rfl
      | exact absurd rfl (hf _)
  · intro f argExprs kwArgs hv
    simp [parseCallExpr, hv]

/-- Witness for C4 on the spec's two examples, end to end through the
string-form gate: `"add(45, 55)"` parses to `("add", [45, 55])` and
`"add(x, 1)"` (non-literal argument `x`) fails with the parse error. -/
theorem c4_witness :
    resolveCallString ppEx "add(45, 55)" [] = .ok ("add", [Value.num 45, Value.num 55]) ∧
    resolveCallString ppEx "add(x, 1)" [] = .error (.parseFailure "add(x, 1)") :=
  ⟨rfl, rfl⟩

/-- Counterexample to C3 as stated: `schemaSingleRef` has exactly one
top-level property (`data`) that references another definition
(`$defs.DataInput`, inner properties `a`, `b`) — the claim's Wrapped
detection criterion — yet marshaling two arguments does not produce the
wrapped payload: the marshaler keys its detection on the property *name*
`input`, takes the flat branch, and fails on arity (expected 1, the single
top-level property, got 2). -/
theorem c3_counterexample :
    marshal "make_data" schemaSingleRef [Value.num 2, Value.num 3] =
      .error (.argCountMismatch "make_data" 1 2) ∧
    marshal "make_data" schemaSingleRef [Value.num 2, Value.num 3] ≠
      .ok [("input", Value.obj [("a", Value.num 2), ("b", Value.num 3)])] := by
  have he : marshal "make_data" schemaSingleRef [Value.num 2, Value.num 3] =
      .error (.argCountMismatch "make_data" 1 2) := rfl
  refine ⟨he, ?_⟩
  rw [he]
  intro h
  exact Except.noConfusion h

/-- C3 as amended: the marshaler detects the wrapped shape by the presence
of a top-level property *named* `input`; for a schema with such a property
and a nonempty `$defs`, whose first definition declares inner properties
`[p1..pn]`, invoking with `n` arguments produces the payload
`\x7b"input": \x7bp_i: args[i]\x7d\x7d` zipped in declared order. -/
theorem c3_wrapped_marshal (toolName : String) (schema : Schema) (args : List Value)
    (dname : String) (innerProps : List (String × Value))
    (rest : List (String × List (String × Value)))
    (h1 : "input" ∈ dictKeys schema.properties)
    (h2 : schema.defs = (dname, innerProps) :: rest)
    (h3 : (dictKeys innerProps).length = args.length) :
    marshal toolName schema args = .ok [("input", .obj ((dictKeys innerProps).zip args))] := by
  simp [marshal, h1, h2, h3]

/-- Witness for C3 (amended) on the repository's wrapped `add` schema:
two arguments marshal to `\x7b"input": \x7ba: 2, b: 3\x7d\x7d`. -/
theorem c3_witness :
    marshal "add" schemaAddWrapped [Value.num 2, Value.num 3] =
      .ok [("input", Value.obj [("a", Value.num 2), ("b", Value.num 3)])] :=
  c3_wrapped_marshal "add" schemaAddWrapped [Value.num 2, Value.num 3] "AddInput"
    [("a", intTag), ("b", intTag)] [] (by decide) rfl rfl

/-- Counterexample to C5 as stated: `schemaFlatInputParam` is a Flat schema
whose single declared ordered property happens to be named `input` (a plain
string parameter, no reference, no `$defs`); invoking with exactly one
argument does not produce the flat payload `\x7binput: arg\x7d` — the
marshaler takes the wrapped branch on the property name and fails with the
(uncaught, in Python a `KeyError`) missing-`$defs` lookup. -/
theorem c5_counterexample :
    marshal "echo" schemaFlatInputParam [Value.str "hello"] = .error .keyLookupFailure ∧
    marshal "echo" schemaFlatInputParam [Value.str "hello"] ≠
      .ok [("input", Value.str "hello")] := by
  have he : marshal "echo" schemaFlatInputParam [Value.str "hello"] =
      .error .keyLookupFailure := rfl
  refine ⟨he, ?_⟩
  rw [he]
  intro h
  exact Except.noConfusion h

/-- C5 as amended: for every tool whose schema is the Flat shape with
declared ordered properties `[p1..pn]`, *none of which is named `input`*,
invoking it with exactly `n` arguments produces the marshaled payload
`\x7bp_i: args[i]\x7d` zipped in declared order. -/
theorem c5_flat_marshal (toolName : String) (schema : Schema) (args : List Value)
    (h1 : "input" ∉ dictKeys schema.properties)
    (h2 : (dictKeys schema.properties).length = args.length) :
    marshal toolName schema args = .ok ((dictKeys schema.properties).zip args) := by
  simp [marshal, h1, h2]

/-- Witness for C5 (amended), the spec's example: a flat schema with
properties `[a, b]` and arguments `[2, 3]` marshals to
`\x7ba: 2, b: 3\x7d`. -/
theorem c5_witness :
    marshal "add" schemaFlatAB [Value.num 2, Value.num 3] =
      .ok [("a", Value.num 2), ("b", Value.num 3)] :=
  c5_flat_marshal "add" schemaFlatAB [Value.num 2, Value.num 3] (by decide) rfl

/-- Counterexample to C6 as stated: the cataloged Flat tool
`inputParamTool` declares one ordered property (a plain string parameter
named `input`, no `$defs`), so invoking it with two arguments is an arity
mismatch (expected 1, actual 2) within the claim's Flat-or-Wrapped scope —
yet the invocation does not fail with the arity error: the name-based
wrapped dispatch fires before either arity check and hits the
missing-`$defs` lookup (in Python the uncaught `KeyError` at
`schema["$defs"]`, line 200). -/
theorem c6_counterexample :
    function_wrapper ppEx pjEx cpEx stInputParam "echo" [Value.str "a", Value.str "b"] =
      .error .keyLookupFailure ∧
    function_wrapper ppEx pjEx cpEx stInputParam "echo" [Value.str "a", Value.str "b"] ≠
      .error (.argCountMismatch "echo" 1 2) := by
  have he : function_wrapper ppEx pjEx cpEx stInputParam "echo"
      [Value.str "a", Value.str "b"] = .error .keyLookupFailure := rfl
  refine ⟨he, ?_⟩
  rw [he]
  intro h
  injection h with h2
  exact MCPError.noConfusion h2

/-- C6 as amended: once the call resolves to a cataloged tool that the
marshaler's branches handle — on the flat branch, no property named
`input`; on the wrapped branch, a property named `input` together with a
nonempty `$defs` — an argument count different from the number of declared
properties (top-level ones on the flat branch, the first definition's inner
ones on the wrapped branch) makes `function_wrapper` fail with the arity
error carrying the expected and actual counts — and the result is the same
for every provider round-trip `cp`, i.e. no provider call is made.  (A tool
with a property named `input` but no `$defs` instead fails with the
uncaught key lookup, as the counterexample shows.) -/
theorem c6_arity_mismatch (pp : String → Option Expr) (pj : String → Option Value)
    (st : MultiState) (tn : String) (args : List Value) (name : String)
    (args0 : List Value) (cfg : ServerConfig) (tool : Tool)
    (h1 : resolveCallString pp tn args = .ok (name, args0))
    (h2 : dictGet name st.tool_map = some (cfg, tool)) :
    ("input" ∉ dictKeys tool.inputSchema.properties →
      (dictKeys tool.inputSchema.properties).length ≠ args0.length →
      ∀ cp, function_wrapper pp pj cp st tn args =
        .error (.argCountMismatch name (dictKeys tool.inputSchema.properties).length
          args0.length)) ∧
    (∀ dname innerProps rest,
      "input" ∈ dictKeys tool.inputSchema.properties →
      tool.inputSchema.defs = (dname, innerProps) :: rest →
      (dictKeys innerProps).length ≠ args0.length →
      ∀ cp, function_wrapper pp pj cp st tn args =
        .error (.argCountMismatch name (dictKeys innerProps).length args0.length)) := by
  constructor
  · intro hc hlen cp
    simp [function_wrapper, h1, h2, marshal, hc, hlen]
  · intro dname innerProps rest hc hdefs hlen cp
    simp [function_wrapper, h1, h2, marshal, hc, hdefs, hlen]

/-- Witness for C6, the spec's example: one argument against a cataloged
two-parameter `add` fails with expected 2, actual 1. -/
theorem c6_witness :
    function_wrapper ppEx pjEx cpEx stFlat "add" [Value.num 2] =
      .error (.argCountMismatch "add" 2 1) :=
  (c6_arity_mismatch ppEx pjEx stFlat "add" [Value.num 2] "add" [Value.num 2] cfgA
    flatAddTool rfl rfl).1 (by decide) (by decide) cpEx

/-- C7: a resolved tool name absent from the catalog makes
`function_wrapper` fail with `ToolNotFound` — for every provider round-trip
`cp`, so before any marshaling or provider dispatch — and `call_tool` fails
the same way on its own lookup, whatever payload it is handed. -/
theorem c7_tool_not_found (pp : String → Option Expr) (pj : String → Option Value)
    (cp : ServerConfig → String → List (String × Value) → CallEnvelope)
    (st : MultiState) (tn : String) (args : List Value) (name : String)
    (args0 : List Value) (payload : List (String × Value))
    (h1 : resolveCallString pp tn args = .ok (name, args0))
    (h2 : dictGet name st.tool_map = none) :
    function_wrapper pp pj cp st tn args = .error (.toolNotFound name) ∧
    call_tool cp st name payload = .error (.toolNotFound name) ∧
    (∀ cp', function_wrapper pp pj cp' st tn args = function_wrapper pp pj cp st tn args) := by
  refine ⟨?_, ?_, ?_⟩
  · simp [function_wrapper, h1, h2]
  · simp [call_tool, h2]
  · intro cp'
    simp [function_wrapper, h1, h2]

/-- Witness for C7, the spec's example: `invoke("missingTool", [])` against
an empty catalog fails with `ToolNotFound`. -/
theorem c7_witness :
    function_wrapper ppEx pjEx cpEx emptyState "missingTool" [] =
      .error (.toolNotFound "missingTool") :=
  (c7_tool_not_found ppEx pjEx cpEx emptyState "missingTool" [] "missingTool" [] []
    rfl rfl).1

/-- C10: `function_wrapper` treats its first argument as a textual call
expression only when no positional argument is supplied and the stripped
string both contains `(` and ends with `)`.  With positional arguments
present, or with the shape test failing (e.g. `"add("` without a trailing
`)`), the string is used verbatim as the tool name, and an absent verbatim
name fails with `ToolNotFound`; when the gate does fire, the input goes to
the external expression parser and then the literal-call handler. -/
theorem c10_string_form_gate (pp : String → Option Expr) (tn : String) (args : List Value) :
    (args ≠ [] → resolveCallString pp tn args = .ok (tn, args)) ∧
    ((pyEndsWith (pyStrip tn) ')' && pyContainsChar (pyStrip tn) '(') = false →
      resolveCallString pp tn args = .ok (tn, args)) ∧
    (∀ pj cp st, dictGet tn st.tool_map = none →
      (args ≠ [] ∨ (pyEndsWith (pyStrip tn) ')' && pyContainsChar (pyStrip tn) '(') = false) →
      function_wrapper pp pj cp st tn args = .error (.toolNotFound tn)) ∧
    (args = [] → (pyEndsWith (pyStrip tn) ')' && pyContainsChar (pyStrip tn) '(') = true →
      resolveCallString pp tn args =
        match pp (pyStrip tn) with
        | none => .error (.parseFailure tn)
        | some e => parseCallExpr tn e) := by
  have hne : ∀ (a : Value) (rest : List Value), resolveCallString pp tn (a :: rest) =
      .ok (tn, a :: rest) := by
    intro a rest
    simp [resolveCallString]
  have hshape : (pyEndsWith (pyStrip tn) ')' && pyContainsChar (pyStrip tn) '(') = false →
      resolveCallString pp tn args = .ok (tn, args) := by
    intro h
    rcases args with _ | ⟨a, rest⟩
    · simp [resolveCallString, h]
    · exact hne a rest
  refine ⟨?_, hshape, ?_, ?_⟩
  · intro h
    rcases args with _ | ⟨a, rest⟩
    · exact absurd rfl h
    · exact hne a rest
  · intro pj cp st hget hcond
    have hres : resolveCallString pp tn args = .ok (tn, args) := by
      rcases hcond with h | h
      · rcases args with _ | ⟨a, rest⟩
        · exact absurd rfl h
        · exact hne a rest
      · exact hshape h
    simp [function_wrapper, hres, hget]
  · intro h1 h2
    subst h1
    simp [resolveCallString, h2]

/-- Witness for C10: `"add("` (no trailing `)`) with no arguments is used
verbatim and, absent from the catalog, fails with `ToolNotFound` for that
literal name; a call-shaped string accompanied by a positional argument is
also used verbatim. -/
theorem c10_witness :
    resolveCallString ppEx "add(" [] = .ok ("add(", []) ∧
    function_wrapper ppEx pjEx cpEx emptyState "add(" [] = .error (.toolNotFound "add(") ∧
    resolveCallString ppEx "add(2)" [Value.num 7] = .ok ("add(2)", [Value.num 7]) :=
  ⟨rfl, rfl, rfl⟩

end MultiMCP
